import Mathlib

/-!
Shallow embedding of the background job processing subsystem of the goth
repository (worker package, job-queue SQL in internal/db/queries/core.sql,
schema in migrations/002_business.sql and 004_rate_limiting.sql).

Conventions of the embedding:
* Go `time.Duration` values and timestamps are `Int` nanoseconds.
* Go `int64` arithmetic that can overflow is modelled with an explicit
  wrap-around `wrap64` (two's complement, width 64).
* Go `error` values are modelled by `GoError` (the `Error()` string plus
  the two sentinel identities tested with `errors.Is`); `Option GoError`
  is a possibly-nil error (`none` = nil).
* SQL tables are lists of rows; `jobs.id` and `dead_letter_jobs.id` are
  AUTOINCREMENT primary keys, so `WHERE id = ?` reads use the first match
  while updates map over all rows (equivalent under key uniqueness).
* Logging and metrics calls have no effect on the modelled state and are
  omitted.
-/

namespace Goth

/-! ### Time units (nanoseconds, as in Go `time`) -/

def timeMillisecond : Int := 1000000

def timeSecond : Int := 1000000000

def timeMinute : Int := 60 * timeSecond

def timeHour : Int := 60 * timeMinute

/-! ### 64-bit two's-complement wrap-around -/

/-- Interpret an unbounded integer as a Go `int64`: reduce modulo `2^64`
into the interval `[-2^63, 2^63)`. -/
def wrap64 (x : Int) : Int :=
  (x + 2 ^ 63) % (2 ^ 64) - 2 ^ 63

/-- Go `1 << n` evaluated on `int` (64-bit): `2^n` wrapped.  For `n = 63`
this is `-2^63`, for `n ≥ 64` it is `0`, exactly as in Go. -/
def goShl1 (n : Nat) : Int :=
  wrap64 (2 ^ n)

/-! ### Backoff policy (internal/worker/backoff.go) -/

structure BackoffConfig where
  BaseDelay : Int
  MaxDelay : Int
  deriving DecidableEq, Repr

def DefaultBackoffConfig : BackoffConfig :=
  { BaseDelay := 100 * timeMillisecond, MaxDelay := 30 * timeSecond }

/-- The value `min(cfg.BaseDelay*time.Duration(1<<attempt), cfg.MaxDelay)`
computed by `FullJitter` (and `Exponential`) for `attempt ≥ 1`, with the
int64 wrap-around of the Go multiplication made explicit. -/
def fullJitterExpValue (attempt : Int) (cfg : BackoffConfig) : Int :=
  min (wrap64 (cfg.BaseDelay * goShl1 attempt.toNat)) cfg.MaxDelay

/-- `FullJitter(attempt, cfg)` from backoff.go.  The random draw
`rand.Int63n(int64(exp))` is modelled by the parameter `jitter` (the
value the source of randomness produced); `rand.Int63n` panics when its
bound is not positive, modelled as `none`. -/
def FullJitter (attempt : Int) (cfg : BackoffConfig) (jitter : Int) : Option Int :=
  if attempt ≤ 0 then
    some cfg.BaseDelay
  else
    let expv := fullJitterExpValue attempt cfg
    if expv ≤ 0 then
      none
    else
      some (wrap64 (Int.tdiv expv 2 + jitter))

/-! ### Go string primitives

Strings are handled as `List Char`.  `headMatches p l` is "`p` is a
prefix of `l`"; `hasSubList p l` is Go `strings.Contains(l, p)`.
`strings.Split(s, sep)[0]` is `beforeFirst sep s`; when `sep` occurs in
`s` (so `len(parts) > 1`), `parts[1]` is the segment after the first
occurrence of `sep` and before the next one, i.e.
`beforeFirst sep t` where `afterFirst sep s = some t`. -/

def headMatches : List Char → List Char → Bool
  | [], _ => true
  | _ :: _, [] => false
  | p :: ps, c :: cs => p = c && headMatches ps cs

def hasSubList (p : List Char) : List Char → Bool
  | [] => p.isEmpty
  | c :: cs => headMatches p (c :: cs) || hasSubList p cs

def afterFirst (sep : List Char) : List Char → Option (List Char)
  | [] => if sep.isEmpty then some [] else none
  | c :: cs =>
    if headMatches sep (c :: cs) then some ((c :: cs).drop sep.length)
    else afterFirst sep cs

def beforeFirst (sep : List Char) : List Char → List Char
  | [] => []
  | c :: cs =>
    if headMatches sep (c :: cs) then []
    else c :: beforeFirst sep cs

/-- Go `strings.ToLower`, restricted to ASCII letters (the only letters
appearing in the worker's error-classification patterns). -/
def lowerList (l : List Char) : List Char :=
  l.map Char.toLower

def isSpaceChar (c : Char) : Bool :=
  c = ' ' || c = '\t' || c = '\n' || c = '\r' || c.toNat = 11 || c.toNat = 12

/-- Go `strings.TrimSpace` (ASCII whitespace). -/
def trimSpace (l : List Char) : List Char :=
  ((l.dropWhile isSpaceChar).reverse.dropWhile isSpaceChar).reverse

/-- Go `strings.TrimPrefix(l, p)`. -/
def stripLead (p : List Char) (l : List Char) : List Char :=
  if headMatches p l then l.drop p.length else l

/-! ### Go errors -/

/-- A non-nil Go `error` as the worker observes it: its `Error()` string
plus the two sentinel identities the worker tests with `errors.Is`. -/
structure GoError where
  msg : String
  isDeadlineExceeded : Bool := false
  isCanceled : Bool := false
  deriving DecidableEq, Repr

/-! ### Go number / duration parsing (rate_limit.go helpers) -/

/-- The numeric value of a nonempty all-digit string (Go digit parsing). -/
def digitsVal : List Char → Option Nat
  | [] => none
  | [c] => if c.isDigit then some (c.toNat - 48) else none
  | c :: cs =>
    if c.isDigit then
      match digitsVal cs with
      | some v => some ((c.toNat - 48) * 10 ^ cs.length + v)
      | none => none
    else none

/-- Go `strconv.ParseInt(s, 10, 64)`: optional sign, nonempty digits,
must fit in `int64`. -/
def goParseInt (l : List Char) : Option Int :=
  let signed : Bool × List Char :=
    match l with
    | '-' :: rest => (true, rest)
    | '+' :: rest => (false, rest)
    | _ => (false, l)
  match digitsVal signed.2 with
  | none => none
  | some v =>
    let x : Int := if signed.1 then -(v : Int) else (v : Int)
    if -(2 ^ 63) ≤ x ∧ x ≤ 2 ^ 63 - 1 then some x else none

/-- The multiplier of a Go duration unit at the head of the list, with
the remaining characters.  Two-letter units are matched first, as in
Go's own table. -/
def durUnit : List Char → Option (Int × List Char)
  | 'n' :: 's' :: rest => some (1, rest)
  | 'u' :: 's' :: rest => some (1000, rest)
  | 'm' :: 's' :: rest => some (timeMillisecond, rest)
  | 's' :: rest => some (timeSecond, rest)
  | 'm' :: rest => some (timeMinute, rest)
  | 'h' :: rest => some (timeHour, rest)
  | _ => none

/-- One `<digits><unit>` component and the remaining characters. -/
def durComponent (l : List Char) : Option (Int × List Char) :=
  let digits := l.takeWhile Char.isDigit
  let rest := l.dropWhile Char.isDigit
  match digitsVal digits with
  | none => none
  | some v =>
    match durUnit rest with
    | none => none
    | some (unit, rest2) => some ((v : Int) * unit, rest2)

/-- Go `time.ParseDuration`, restricted to an optional sign followed by
one or more integer `<digits><unit>` components (ASCII units; fractional
components and the bare literal `"0"` accept the digit path only when a
unit follows, as in Go an omitted unit is an error).  No claim depends
on the branches outside this subset.  The fuel argument bounds the
number of components by the input length. -/
def durComponents (fuel : Nat) (l : List Char) : Option Int :=
  match fuel with
  | 0 => none
  | fuel + 1 =>
    match durComponent l with
    | none => none
    | some (v, rest) =>
      if rest.isEmpty then some v
      else
        match durComponents fuel rest with
        | none => none
        | some w => some (v + w)

def goParseDuration (l : List Char) : Option Int :=
  match l with
  | '-' :: rest => (durComponents rest.length rest).map (fun v => -v)
  | '+' :: rest => durComponents rest.length rest
  | _ => durComponents l.length l

/-- `parseRetrySeconds` from rate_limit.go: trims, cuts at the first
space, comma or closing brace, then tries `strconv.ParseInt` and
`time.ParseDuration` (taking whole seconds). -/
def parseRetrySeconds (l : List Char) : Int :=
  let s := trimSpace l
  let s := beforeFirst [' '] s
  let s := beforeFirst [','] s
  let s := beforeFirst [Char.ofNat 125] s
  match goParseInt s with
  | some n => n
  | none =>
    match goParseDuration s with
    | some d => Int.tdiv d timeSecond
    | none => 0

/-! ### Error classification (backoff.go, rate_limit.go) -/

def retryableErrors : List String :=
  ["rate limit", "quota", "too many requests", "429", "500", "502",
   "503", "504", "connection refused", "context deadline exceeded",
   "i/o timeout", "TEMPORARY_FAILURE", "TRY_AGAIN"]

/-- `IsRetryableError` from backoff.go. -/
def IsRetryableError (err : Option GoError) : Bool :=
  match err with
  | none => false
  | some e =>
    let errStr := lowerList e.msg.toList
    retryableErrors.any (fun p => hasSubList (lowerList p.toList) errStr)
      || e.isDeadlineExceeded || e.isCanceled

/-- `IsExternalRateLimitError` from rate_limit.go. -/
def IsExternalRateLimitError (err : Option GoError) : Bool :=
  match err with
  | none => false
  | some e =>
    let errStr := lowerList e.msg.toList
    hasSubList "rate limit".toList errStr ||
    hasSubList "too many requests".toList errStr ||
    hasSubList "429".toList errStr ||
    hasSubList "quota exceeded".toList errStr ||
    hasSubList "throttl".toList errStr

/-- `GetRetryAfterDuration` from rate_limit.go.  `strings.Split(errStr,
"retry-after")` has more than one part exactly when `afterFirst` finds
an occurrence, and `parts[1]` is then the segment before the next
occurrence. -/
def GetRetryAfterDuration (err : Option GoError) : Int :=
  match err with
  | none => 0
  | some e =>
    let errStr := lowerList e.msg.toList
    let sep := "retry-after".toList
    let fromHeader : Option Int :=
      match afterFirst sep errStr with
      | none => none
      | some tail =>
        let rest := trimSpace (beforeFirst sep tail)
        let rest := stripLead [':'] rest
        let rest := stripLead ['='] rest
        let rest := trimSpace rest
        let secs := parseRetrySeconds rest
        if 0 < secs then some (secs * timeSecond) else none
    match fromHeader with
    | some d => d
    | none => if IsExternalRateLimitError err then timeMinute else 0

/-! ### Data model (migrations/002_business.sql, 004_rate_limiting.sql)

Timestamps are `Int` nanoseconds; nullable columns are `Option`. -/

inductive JobStatus where
  | pending
  | processing
  | completed
  | failed
  | cancelled
  deriving DecidableEq, Repr

/-- A row of the `jobs` table. -/
structure Job where
  id : Int
  tenantId : Option String
  jobType : String
  payload : String
  status : JobStatus
  idempotencyKey : Option String
  attemptCount : Int
  maxAttempts : Int
  lastError : Option String
  runAt : Option Int
  startedAt : Option Int
  completedAt : Option Int
  createdAt : Option Int
  updatedAt : Option Int
  deriving DecidableEq, Repr

/-- A row of the `dead_letter_jobs` table (the columns the DLQ queries
read or write). -/
structure DLJob where
  id : Int
  originalJobId : Int
  tenantId : Option String
  jobType : String
  payload : String
  attemptCount : Int
  lastError : Option String
  failedAt : Int
  deriving DecidableEq, Repr

/-- The durable store: the three tables owned by the subsystem, plus the
next AUTOINCREMENT keys. -/
structure DBState where
  jobs : List Job
  processedJobs : List Int
  deadLetterJobs : List DLJob
  nextJobId : Int
  nextDlqId : Int
  deriving DecidableEq, Repr

def emptyDB : DBState :=
  { jobs := [], processedJobs := [], deadLetterJobs := [],
    nextJobId := 1, nextDlqId := 1 }

/-! ### Job-queue queries (internal/db/queries/core.sql) -/

/-- Whether inserting a row carrying `key` in `idempotency_key` violates
the schema's `UNIQUE` constraint.  SQL `UNIQUE` never applies to NULL
values. -/
def uniqueKeyViolation (db : DBState) (key : Option String) : Bool :=
  match key with
  | none => false
  | some k => db.jobs.any (fun j => j.idempotencyKey = some k)

/-- `CreateJob`: `INSERT INTO jobs (tenant_id, type, payload, run_at)
VALUES (?, ?, ?, ?) RETURNING *`.  The insert names no
`idempotency_key` column, so the stored key is the column's default,
NULL; all remaining columns take their schema defaults. -/
def CreateJob (db : DBState) (now : Int) (tenantId : Option String)
    (jobType payload : String) (runAt : Option Int) : Option (DBState × Job) :=
  let key : Option String := none
  if uniqueKeyViolation db key then none
  else
    let j : Job :=
      { id := db.nextJobId, tenantId := tenantId, jobType := jobType,
        payload := payload, status := .pending, idempotencyKey := key,
        attemptCount := 0, maxAttempts := 3, lastError := none,
        runAt := runAt, startedAt := none, completedAt := none,
        createdAt := some now, updatedAt := some now }
    some ({ db with jobs := db.jobs ++ [j], nextJobId := db.nextJobId + 1 }, j)

/-- The `WHERE` condition of `PickNextJob`'s inner `SELECT`: status
`'pending'` and `run_at <= CURRENT_TIMESTAMP` (NULL `run_at` fails the
comparison). -/
def claimable (now : Int) (j : Job) : Bool :=
  j.status = JobStatus.pending &&
    (match j.runAt with
     | some t => decide (t ≤ now)
     | none => false)

/-- One step of scanning for the row `ORDER BY run_at ASC LIMIT 1`
chooses: keep the claimable row with the smaller `run_at` (claimable
rows always carry a non-NULL `run_at`). -/
def pickStep (now : Int) (acc : Option Job) (j : Job) : Option Job :=
  if claimable now j then
    match acc with
    | none => some j
    | some b => if j.runAt.getD 0 < b.runAt.getD 0 then some j else some b
  else acc

/-- The row the inner `SELECT ... ORDER BY run_at ASC LIMIT 1` of
`PickNextJob` chooses: the first claimable row with minimal `run_at`. -/
def pickCandidate (now : Int) (jobs : List Job) : Option Job :=
  jobs.foldl (pickStep now) none

/-- `PickNextJob`: atomically flip the chosen row to `'processing'`,
stamping `updated_at`, and return the updated row. -/
def PickNextJob (db : DBState) (now : Int) : Option (DBState × Job) :=
  match pickCandidate now db.jobs with
  | none => none
  | some j =>
    let upd := fun x =>
      if x.id = j.id then
        { x with status := JobStatus.processing, updatedAt := some now }
      else x
    some ({ db with jobs := db.jobs.map upd }, upd j)

/-- `CompleteJob`: `UPDATE jobs SET status = 'completed', updated_at =
CURRENT_TIMESTAMP WHERE id = ?`. -/
def CompleteJob (db : DBState) (now : Int) (id : Int) : DBState :=
  { db with
    jobs := db.jobs.map (fun j =>
      if j.id = id then
        { j with status := JobStatus.completed, updatedAt := some now }
      else j) }

/-- `FailJob`: `UPDATE jobs SET status = 'failed', last_error = ?,
updated_at = CURRENT_TIMESTAMP WHERE id = ?`. -/
def FailJob (db : DBState) (now : Int) (lastError : String) (id : Int) : DBState :=
  { db with
    jobs := db.jobs.map (fun j =>
      if j.id = id then
        { j with status := JobStatus.failed, lastError := some lastError,
                 updatedAt := some now }
      else j) }

/-- The per-row effect of `RescueZombies`: rows in `'processing'` whose
`updated_at` is older than five minutes go back to `'pending'` with
`attempt_count + 1`; every other row is untouched (a NULL `updated_at`
fails the SQL comparison). -/
def rescueRow (now : Int) (j : Job) : Job :=
  if j.status = JobStatus.processing &&
      (match j.updatedAt with
       | some t => decide (t < now - 5 * timeMinute)
       | none => false) then
    { j with status := JobStatus.pending, attemptCount := j.attemptCount + 1 }
  else j

/-- `RescueZombies`: `UPDATE jobs SET status = 'pending', attempt_count
= attempt_count + 1 WHERE status = 'processing' AND updated_at <
datetime('now', '-5 minutes')`. -/
def RescueZombies (db : DBState) (now : Int) : DBState :=
  { db with jobs := db.jobs.map (rescueRow now) }

/-- `RecordJobProcessed`: upsert into the `processed_jobs` ledger (the
conflict branch only refreshes `processed_at`, which the model does not
track). -/
def RecordJobProcessed (db : DBState) (id : Int) : DBState :=
  if id ∈ db.processedJobs then db
  else { db with processedJobs := db.processedJobs ++ [id] }

/-- `IsJobProcessed`: `SELECT EXISTS(SELECT 1 FROM processed_jobs WHERE
job_id = ?)`. -/
def IsJobProcessed (db : DBState) (id : Int) : Bool :=
  decide (id ∈ db.processedJobs)

/-- `MoveToDeadLetter`: `INSERT INTO dead_letter_jobs (...) SELECT ...
FROM jobs WHERE jobs.id = ?`; `jobs.id` is the primary key, so at most
one row matches.  `failed_at` takes its default, the current time. -/
def MoveToDeadLetter (db : DBState) (now : Int) (id : Int) : DBState :=
  match db.jobs.find? (fun j => j.id == id) with
  | none => db
  | some r =>
    let d : DLJob :=
      { id := db.nextDlqId, originalJobId := r.id, tenantId := r.tenantId,
        jobType := r.jobType, payload := r.payload,
        attemptCount := r.attemptCount, lastError := r.lastError,
        failedAt := now }
    { db with deadLetterJobs := db.deadLetterJobs ++ [d],
              nextDlqId := db.nextDlqId + 1 }

/-- `DeleteJob`: `DELETE FROM jobs WHERE id = ?`. -/
def DeleteJob (db : DBState) (id : Int) : DBState :=
  { db with jobs := db.jobs.filter (fun j => !(j.id == id)) }

/-- `ReprocessDeadLetterJob`: `INSERT INTO jobs (tenant_id, type,
payload, run_at) SELECT tenant_id, type, payload, CURRENT_TIMESTAMP FROM
dead_letter_jobs WHERE dead_letter_jobs.id = ? RETURNING *`; the archive
id is the primary key.  With no matching archive row nothing is
inserted and the `:one` query surfaces `sql.ErrNoRows` (`none`). -/
def ReprocessDeadLetterJob (db : DBState) (now : Int) (dlqId : Int) :
    Option (DBState × Job) :=
  match db.deadLetterJobs.find? (fun d => d.id == dlqId) with
  | none => none
  | some d =>
    let j : Job :=
      { id := db.nextJobId, tenantId := d.tenantId, jobType := d.jobType,
        payload := d.payload, status := .pending, idempotencyKey := none,
        attemptCount := 0, maxAttempts := 3, lastError := none,
        runAt := some now, startedAt := none, completedAt := none,
        createdAt := some now, updatedAt := some now }
    some ({ db with jobs := db.jobs ++ [j], nextJobId := db.nextJobId + 1 }, j)

/-- `DeleteDeadLetterJob`: `DELETE FROM dead_letter_jobs WHERE id = ?`. -/
def DeleteDeadLetterJob (db : DBState) (dlqId : Int) : DBState :=
  { db with deadLetterJobs := db.deadLetterJobs.filter (fun d => !(d.id == dlqId)) }

/-! ### Dead-letter queue (internal/worker/dlq code in the worker package) -/

def MaxJobAttempts : Int := 5

def DLQRetentionDays : Int := 14

/-- `ShouldMoveToDLQ` from the worker package: the attempt count is
compared against the package constant `MaxJobAttempts`, and the age
since creation against 24 hours (`time.Since(job.CreatedAt.Time)` with a
valid `CreatedAt`). -/
def ShouldMoveToDLQ (now : Int) (job : Job) : Bool :=
  if job.attemptCount ≥ MaxJobAttempts then true
  else
    match job.createdAt with
    | some t => decide (now - t > 24 * timeHour)
    | none => false

/-- `DeadLetterQueue.Move`: one transaction running `MoveToDeadLetter`
then `DeleteJob` and committing.  The Go method rolls back and leaves
the state unchanged when the store fails mid-transaction; store
(infrastructure) failures are not injected here, the model is the
committed effect. -/
def Move (db : DBState) (now : Int) (job : Job) : DBState :=
  DeleteJob (MoveToDeadLetter db now job.id) job.id

/-- `DeadLetterQueue.Reprocess`: `ReprocessDeadLetterJob`, then
`DeleteDeadLetterJob`, returning the freshly inserted job. -/
def Reprocess (db : DBState) (now : Int) (dlqJobId : Int) : Option (DBState × Job) :=
  match ReprocessDeadLetterJob db now dlqJobId with
  | none => none
  | some (db1, job) => some (DeleteDeadLetterJob db1 dlqJobId, job)

/-! ### Processor outcome handling (internal/worker/processor.go) -/

/-- Which steps of `handleSuccess`'s transaction fail (begin, the two
statements, commit).  Any failure aborts the function; the deferred
`tx.Rollback()` then discards the uncommitted writes. -/
structure TxFailures where
  beginFails : Bool
  recordFails : Bool
  completeFails : Bool
  commitFails : Bool
  deriving DecidableEq, Repr

def noTxFailures : TxFailures :=
  { beginFails := false, recordFails := false,
    completeFails := false, commitFails := false }

/-- An open transaction: the committed state it started from and its
own pending view.  Rollback restores `base`; commit publishes
`pending`. -/
structure Tx where
  base : DBState
  pending : DBState

/-- `handleSuccess`: inside one transaction, `RecordJobProcessed` then
`CompleteJob`; on any failure the function returns early and the
deferred rollback leaves the committed state untouched. -/
def handleSuccess (db : DBState) (now : Int) (jobId : Int) (f : TxFailures) : DBState :=
  if f.beginFails then db
  else
    let tx : Tx := { base := db, pending := db }
    if f.recordFails then tx.base
    else
      let tx : Tx := { tx with pending := RecordJobProcessed tx.pending jobId }
      if f.completeFails then tx.base
      else
        let tx : Tx := { tx with pending := CompleteJob tx.pending now jobId }
        if f.commitFails then tx.base
        else tx.pending

/-- `handleFailure`: move to the DLQ when `ShouldMoveToDLQ`, otherwise
`FailJob` with the error text; the retryable-error test only logs and
bumps a metric. -/
def handleFailure (db : DBState) (now : Int) (job : Job) (e : GoError) : DBState :=
  if ShouldMoveToDLQ now job then Move db now job
  else FailJob db now e.msg job.id

/-- What one `processJob` call did to the store and whether the job's
handler ran. -/
structure ProcOutcome where
  db : DBState
  handlerInvoked : Bool
  deriving DecidableEq, Repr

/-- `processJob` on a claimed job: the idempotency short-circuit, the
rate-limiter admission (`admitted = false` is a cancelled `Acquire`,
which returns without touching the job), the handler dispatch (its
result is `handlerResult`; `none` is success), the external-rate-limit
special case (sleep, then clear the error), and the outcome routing.
`isProcessedQueryOk` is whether the `IsJobProcessed` query itself
succeeded (the short-circuit needs `err == nil && processed == 1`).
The completion broadcast touches no modelled state. -/
def processJob (db : DBState) (now : Int) (job : Job) (isProcessedQueryOk : Bool)
    (admitted : Bool) (handlerResult : Option GoError) (f : TxFailures) : ProcOutcome :=
  if isProcessedQueryOk && IsJobProcessed db job.id then
    { db := CompleteJob db now job.id, handlerInvoked := false }
  else if !admitted then
    { db := db, handlerInvoked := false }
  else
    let errProcessing := handlerResult
    let errProcessing :=
      if decide (0 < GetRetryAfterDuration errProcessing) &&
          IsExternalRateLimitError errProcessing then
        none
      else errProcessing
    match errProcessing with
    | some e => { db := handleFailure db now job e, handlerInvoked := true }
    | none => { db := handleSuccess db now job.id f, handlerInvoked := true }

/-! ### Per-type concurrency semaphores (internal/worker/rate_limit.go)

The token-bucket half of admission (`rate.Limiter`) gates timing only
and holds no permits; the concurrency half is a buffered channel per
type used as a counting semaphore, modelled as a count per semaphore
key. -/

structure JobRateConfig where
  concurrency : Nat
  rateLimit : Int
  burst : Nat
  deriving DecidableEq, Repr

/-- `DefaultJobRateConfigs` (the `rate.Limit` fields are the float64
values 2, 1 and 5, all exactly representable as integers). -/
def DefaultJobRateConfigs : List (String × JobRateConfig) :=
  [("send_email", { concurrency := 5, rateLimit := 2, burst := 5 }),
   ("send_verification_email", { concurrency := 5, rateLimit := 2, burst := 5 }),
   ("send_password_reset_email", { concurrency := 5, rateLimit := 2, burst := 5 }),
   ("process_ai", { concurrency := 3, rateLimit := 1, burst := 3 }),
   ("process_webhook", { concurrency := 10, rateLimit := 5, burst := 10 })]

/-- `getSemaphore`: unknown job types share the `"default"` semaphore. -/
def semKey (jobType : String) : String :=
  if (DefaultJobRateConfigs.find? (fun p => p.1 == jobType)).isSome then jobType
  else "default"

/-- The capacity `NewJobRateLimiter` gives each semaphore: the
configured concurrency, and 5 for `"default"`. -/
def semCap (key : String) : Nat :=
  match DefaultJobRateConfigs.find? (fun p => p.1 == key) with
  | some p => p.2.concurrency
  | none => 5

/-- Permits currently held, per semaphore key.  All channels start
empty. -/
def initSemState : String → Nat := fun _ => 0

inductive SemOp where
  | acquire (jobType : String)
  | release (jobType : String)

def updateFn (f : String → Nat) (k : String) (v : Nat) : String → Nat :=
  fun s => if s = k then v else f s

/-- One completed rate-limiter event.  `Acquire`'s channel send succeeds
only when a slot is free — a full semaphore blocks the caller or is
cancelled via `ctx.Done()`, leaving the count unchanged either way.
`Release` is a `select` with a `default` arm: it takes back a permit
when one is held and is a non-blocking no-op otherwise. -/
def applySemOp (st : String → Nat) : SemOp → (String → Nat)
  | .acquire t =>
    let k := semKey t
    if st k < semCap k then updateFn st k (st k + 1) else st
  | .release t =>
    let k := semKey t
    if 0 < st k then updateFn st k (st k - 1) else st

def runSemOps (ops : List SemOp) : String → Nat :=
  ops.foldl applySemOp initSemState

/-! ### SQL operation traces

The primitive state-changing queries of core.sql as events, for
statements over every reachable store state. -/

inductive DbOp where
  | createJob (now : Int) (tenantId : Option String) (jobType payload : String)
      (runAt : Option Int)
  | pickNextJob (now : Int)
  | completeJob (now : Int) (id : Int)
  | failJob (now : Int) (lastError : String) (id : Int)
  | rescueZombies (now : Int)
  | recordJobProcessed (id : Int)
  | moveToDeadLetter (now : Int) (id : Int)
  | deleteJob (id : Int)
  | reprocessDeadLetterJob (now : Int) (dlqId : Int)
  | deleteDeadLetterJob (dlqId : Int)
  deriving DecidableEq, Repr

def applyDbOp (db : DBState) : DbOp → DBState
  | .createJob now tenantId jobType payload runAt =>
    match CreateJob db now tenantId jobType payload runAt with
    | none => db
    | some (db1, _) => db1
  | .pickNextJob now =>
    match PickNextJob db now with
    | none => db
    | some (db1, _) => db1
  | .completeJob now id => CompleteJob db now id
  | .failJob now lastError id => FailJob db now lastError id
  | .rescueZombies now => RescueZombies db now
  | .recordJobProcessed id => RecordJobProcessed db id
  | .moveToDeadLetter now id => MoveToDeadLetter db now id
  | .deleteJob id => DeleteJob db id
  | .reprocessDeadLetterJob now dlqId =>
    match ReprocessDeadLetterJob db now dlqId with
    | none => db
    | some (db1, _) => db1
  | .deleteDeadLetterJob dlqId => DeleteDeadLetterJob db dlqId

def runDbOps (ops : List DbOp) : DBState :=
  ops.foldl applyDbOp emptyDB

/-! ### Concrete fixtures used by counterexamples and witnesses -/

def cNow : Int := 1000000000000000

def cErr503 : GoError := { msg := "503 service unavailable" }

def cErrRate : GoError := { msg := "rate limit exceeded" }

/-- A freshly claimed job (first attempt already counted), created just
now, two attempts below its own `max_attempts` cap of 3. -/
def cJob1 : Job :=
  { id := 1, tenantId := none, jobType := "send_email", payload := "{}",
    status := .processing, idempotencyKey := none, attemptCount := 1,
    maxAttempts := 3, lastError := none, runAt := some 0, startedAt := none,
    completedAt := none, createdAt := some cNow, updatedAt := some cNow }

def cDb : DBState :=
  { jobs := [cJob1], processedJobs := [], deadLetterJobs := [],
    nextJobId := 2, nextDlqId := 1 }

/-- A store whose only job carries the idempotency key `"k"`. -/
def cDbWithKey : DBState :=
  { cDb with jobs := [{ cJob1 with idempotencyKey := some "k", status := .pending }] }

/-- A store whose job 1 is already in the processed-jobs ledger. -/
def cDbProcessed : DBState :=
  { cDb with processedJobs := [1] }

/-- A job that has reached its own row's `max_attempts` (3) but not the
worker's package constant `MaxJobAttempts` (5). -/
def cJobAtCap : Job :=
  { cJob1 with attemptCount := 3 }

/-- A stale `processing` job: last touched six minutes ago. -/
def cJobStale : Job :=
  { cJob1 with id := 2, updatedAt := some (cNow - 6 * timeMinute) }

/-- A store holding one stale and one fresh `processing` job. -/
def cDbZombie : DBState :=
  { cDb with jobs := [cJobStale, cJob1], nextJobId := 3 }

/-! ## Theorems -/

theorem wrap64_eq_of_range (x : Int) (hlo : -(2 ^ 63) ≤ x) (hhi : x < 2 ^ 63) :
    wrap64 x = x := by
  unfold wrap64
  have h0 : (0 : Int) ≤ x + 2 ^ 63 := by linarith
  have h1 : x + 2 ^ 63 < 2 ^ 64 := by
    have : (2 : Int) ^ 64 = 2 ^ 63 + 2 ^ 63 := by norm_num
    linarith
  rw [Int.emod_eq_of_lt h0 h1]
  ring

/-- C8 counterexample: `DefaultBackoffConfig` satisfies the claim's
side conditions (`0 < BaseDelay ≤ MaxDelay`), yet at `attempt = 56` the
Go int64 multiplication `BaseDelay * (1 << 56)` wraps to 0, so the
computed bound is not positive and `rand.Int63n` panics instead of
returning a value in `[exp/2, exp/2 + exp)`. -/
theorem fullJitter_overflow_counterexample :
    0 < DefaultBackoffConfig.BaseDelay ∧
    DefaultBackoffConfig.BaseDelay ≤ DefaultBackoffConfig.MaxDelay ∧
    FullJitter 56 DefaultBackoffConfig 0 = none := by
  refine ⟨by decide, by decide, ?_⟩
  decide

/-- C8 (amended): under `0 < BaseDelay ≤ MaxDelay`, with `MaxDelay ≤
2^62` and `BaseDelay * 2^attempt` within int64 range, `FullJitter`
returns exactly `BaseDelay` for `attempt ≤ 0`, and otherwise, for every
outcome of the random source in `[0, exp)`, returns `exp/2 + jitter`,
a value in `[exp/2, exp/2 + exp)`, where
`exp = min(BaseDelay * 2^attempt, MaxDelay)`. -/
theorem fullJitter_range (attempt : Int) (cfg : BackoffConfig) (jitter : Int)
    (hbase : 0 < cfg.BaseDelay) (hmax : cfg.BaseDelay ≤ cfg.MaxDelay)
    (hmaxBound : cfg.MaxDelay ≤ 2 ^ 62)
    (hnoOverflow : cfg.BaseDelay * 2 ^ attempt.toNat < 2 ^ 63)
    (hj0 : 0 ≤ jitter)
    (hjlt : jitter < min (cfg.BaseDelay * 2 ^ attempt.toNat) cfg.MaxDelay) :
    (attempt ≤ 0 → FullJitter attempt cfg jitter = some cfg.BaseDelay) ∧
    (0 < attempt →
      FullJitter attempt cfg jitter =
        some (Int.tdiv (min (cfg.BaseDelay * 2 ^ attempt.toNat) cfg.MaxDelay) 2 + jitter) ∧
      Int.tdiv (min (cfg.BaseDelay * 2 ^ attempt.toNat) cfg.MaxDelay) 2 ≤
        Int.tdiv (min (cfg.BaseDelay * 2 ^ attempt.toNat) cfg.MaxDelay) 2 + jitter ∧
      Int.tdiv (min (cfg.BaseDelay * 2 ^ attempt.toNat) cfg.MaxDelay) 2 + jitter <
        Int.tdiv (min (cfg.BaseDelay * 2 ^ attempt.toNat) cfg.MaxDelay) 2 +
          min (cfg.BaseDelay * 2 ^ attempt.toNat) cfg.MaxDelay) := by
  set expv := min (cfg.BaseDelay * 2 ^ attempt.toNat) cfg.MaxDelay with hexp
  have hpow_pos : (0 : Int) < 2 ^ attempt.toNat := by positivity
  have hprod_pos : 0 < cfg.BaseDelay * 2 ^ attempt.toNat := mul_pos hbase hpow_pos
  have hexp_pos : 0 < expv := lt_min hprod_pos (lt_of_lt_of_le hbase hmax)
  have hpow_lt : (2 : Int) ^ attempt.toNat < 2 ^ 63 := by
    calc (2 : Int) ^ attempt.toNat ≤ cfg.BaseDelay * 2 ^ attempt.toNat := by
          nlinarith
      _ < 2 ^ 63 := hnoOverflow
  constructor
  · intro h
    simp [FullJitter, h]
  · intro hpos
    have hnle : ¬ attempt ≤ 0 := by omega
    have hshl : goShl1 attempt.toNat = 2 ^ attempt.toNat := by
      unfold goShl1
      exact wrap64_eq_of_range _ (by linarith [hpow_pos]) hpow_lt
    have hwrapProd : wrap64 (cfg.BaseDelay * goShl1 attempt.toNat) =
        cfg.BaseDelay * 2 ^ attempt.toNat := by
      rw [hshl]
      exact wrap64_eq_of_range _ (by linarith [hprod_pos]) hnoOverflow
    have hev : fullJitterExpValue attempt cfg = expv := by
      unfold fullJitterExpValue
      rw [hwrapProd]
    have htd : Int.tdiv expv 2 = expv / 2 := Int.tdiv_eq_ediv (le_of_lt hexp_pos) (by norm_num)
    have hq0 : 0 ≤ expv / 2 := Int.ediv_nonneg (le_of_lt hexp_pos) (by norm_num)
    have hqle : expv / 2 ≤ expv := by omega
    have hsum_lt : Int.tdiv expv 2 + jitter < 2 ^ 63 := by
      rw [htd]
      have : expv ≤ 2 ^ 62 := le_trans (min_le_right _ _) hmaxBound
      omega
    have hsum_ge : -(2 ^ 63) ≤ Int.tdiv expv 2 + jitter := by
      rw [htd]; omega
    have hwrapSum : wrap64 (Int.tdiv expv 2 + jitter) = Int.tdiv expv 2 + jitter :=
      wrap64_eq_of_range _ hsum_ge hsum_lt
    refine ⟨?_, by omega, by omega⟩
    simp only [FullJitter, if_neg hnle, hev]
    rw [if_neg (by omega), hwrapSum]

/-- C8 witness: the amended range theorem applied at `attempt = 3`,
`jitter = 5`, with the default configuration. -/
theorem fullJitter_range_witness :
    FullJitter 3 DefaultBackoffConfig 5 =
      some (Int.tdiv (min (DefaultBackoffConfig.BaseDelay * 2 ^ (3 : Int).toNat)
        DefaultBackoffConfig.MaxDelay) 2 + 5) :=
  ((fullJitter_range 3 DefaultBackoffConfig 5 (by decide) (by decide) (by decide)
      (by decide) (by decide) (by decide)).2 (by decide)).1

/-- C3 counterexample: a job at its own row's `max_attempts` cap (3 of
3), freshly created, is nevertheless not routed to the dead-letter
queue, because `ShouldMoveToDLQ` compares against the package constant
`MaxJobAttempts = 5`, not the row's `max_attempts`. -/
theorem shouldMoveToDLQ_cap_counterexample :
    cJobAtCap.maxAttempts ≤ cJobAtCap.attemptCount ∧
    ShouldMoveToDLQ cNow cJobAtCap = false := by decide

/-- C3 (amended): `ShouldMoveToDLQ(job)` is true exactly when
`attempt_count >= MaxJobAttempts` (the constant 5) or the job's
creation age exceeds 24 hours; and every job with `attempt_count >=
MaxJobAttempts` is, on its next failure, removed from the live queue
and archived to the dead-letter table with its original type, payload,
attempt count and last error. -/
theorem shouldMoveToDLQ_spec (now : Int) (job : Job) (db : DBState) (e : GoError) :
    (ShouldMoveToDLQ now job = true ↔
      (MaxJobAttempts ≤ job.attemptCount ∨
        ∃ t, job.createdAt = some t ∧ 24 * timeHour < now - t)) ∧
    (MaxJobAttempts ≤ job.attemptCount →
      (∀ j ∈ (handleFailure db now job e).jobs, j.id ≠ job.id) ∧
      (∀ r, db.jobs.find? (fun j => j.id == job.id) = some r →
        ∃ d ∈ (handleFailure db now job e).deadLetterJobs,
          d.originalJobId = r.id ∧ d.jobType = r.jobType ∧ d.payload = r.payload ∧
          d.attemptCount = r.attemptCount ∧ d.lastError = r.lastError)) := by
  constructor
  · unfold ShouldMoveToDLQ
    split
    · rename_i hge
      simp only [true_iff]
      exact Or.inl hge
    · rename_i hlt
      cases hc : job.createdAt with
      | none => simp [hlt]
      | some t => simp [hlt]
  · intro hcap
    have hS : ShouldMoveToDLQ now job = true := by
      unfold ShouldMoveToDLQ
      rw [if_pos hcap]
    have hHF : handleFailure db now job e = Move db now job := by
      unfold handleFailure
      rw [if_pos hS]
    constructor
    · intro j hj
      rw [hHF] at hj
      unfold Move DeleteJob at hj
      simp only [List.mem_filter] at hj
      have := hj.2
      simpa using this
    · intro r hr
      rw [hHF]
      unfold Move DeleteJob MoveToDeadLetter
      simp only [hr]
      refine ⟨_, List.mem_append_right _ (List.mem_singleton.mpr rfl), rfl, rfl, rfl, rfl, rfl⟩

/-- C3 witness: the amended theorem applied to a job at the constant
cap of 5 attempts in the one-job store. -/
theorem shouldMoveToDLQ_spec_witness :
    ShouldMoveToDLQ cNow { cJob1 with attemptCount := 5 } = true ∧
    ∀ j ∈ (handleFailure cDb cNow { cJob1 with attemptCount := 5 } cErr503).jobs,
      j.id ≠ ({ cJob1 with attemptCount := 5 } : Job).id :=
  ⟨(shouldMoveToDLQ_spec cNow { cJob1 with attemptCount := 5 } cDb cErr503).1.mpr
      (Or.inl (by decide)),
    ((shouldMoveToDLQ_spec cNow { cJob1 with attemptCount := 5 } cDb cErr503).2
      (by decide)).1⟩

/-- C4 counterexample: with a job row already carrying idempotency key
`"k"` in the table, the enqueue query still succeeds and creates a
second job row, and the row it inserts carries no idempotency key at
all — `CreateJob` has no idempotency-key parameter, so no enqueue can
supply one and no uniqueness violation can arise. -/
theorem createJob_no_unique_violation_counterexample :
    (∃ j0 ∈ cDbWithKey.jobs, j0.idempotencyKey = some "k") ∧
    (CreateJob cDbWithKey cNow none "send_email" "{}" (some cNow)).map
      (fun p => (p.2.idempotencyKey, p.1.jobs.length)) = some (none, 2) := by decide

/-- C4 (amended): the enqueue query `CreateJob` inserts only tenant,
type, payload and run-at; every inserted row has a NULL
`idempotency_key` (to which the schema's UNIQUE constraint does not
apply), so enqueue always succeeds by appending a fresh row and never
fails with a uniqueness violation. -/
theorem createJob_inserts_null_key (db : DBState) (now : Int) (tenantId : Option String)
    (jobType payload : String) (runAt : Option Int) :
    ∃ db1 j, CreateJob db now tenantId jobType payload runAt = some (db1, j) ∧
      j.idempotencyKey = none ∧ db1.jobs = db.jobs ++ [j] :=
  ⟨_, _, rfl, rfl, rfl⟩

theorem failJob_row_status (db : DBState) (now : Int) (msg : String) (id : Int) :
    ∀ j ∈ (FailJob db now msg id).jobs, j.id = id →
      j.status = JobStatus.failed ∧ j.lastError = some msg := by
  intro j hj hid
  unfold FailJob at hj
  simp only [List.mem_map] at hj
  obtain ⟨x, hx, rfl⟩ := hj
  by_cases h : x.id = id
  · simp [h]
  · simp only [if_neg h] at hid ⊢
    exact absurd hid h

theorem completeJob_row_status (db : DBState) (now : Int) (id : Int) :
    ∀ j ∈ (CompleteJob db now id).jobs, j.id = id → j.status = JobStatus.completed := by
  intro j hj hid
  unfold CompleteJob at hj
  simp only [List.mem_map] at hj
  obtain ⟨x, hx, rfl⟩ := hj
  by_cases h : x.id = id
  · simp [h]
  · simp only [if_neg h] at hid ⊢
    exact absurd hid h

theorem pickFold_cases (now : Int) (l : List Job) :
    ∀ (acc : Option Job) (j : Job), l.foldl (pickStep now) acc = some j →
      acc = some j ∨ (j ∈ l ∧ claimable now j = true) := by
  induction l with
  | nil => intro acc j h; exact Or.inl h
  | cons x xs ih =>
    intro acc j h
    simp only [List.foldl_cons] at h
    rcases ih _ _ h with h1 | h1
    · unfold pickStep at h1
      by_cases hc : claimable now x = true
      · rw [if_pos hc] at h1
        cases acc with
        | none =>
          injection h1 with h1
          subst h1
          exact Or.inr ⟨List.mem_cons_self _ _, hc⟩
        | some b =>
          dsimp only at h1
          by_cases hr : x.runAt.getD 0 < b.runAt.getD 0
          · rw [if_pos hr] at h1
            injection h1 with h1
            subst h1
            exact Or.inr ⟨List.mem_cons_self _ _, hc⟩
          · rw [if_neg hr] at h1
            exact Or.inl h1
      · rw [if_neg hc] at h1
        exact Or.inl h1
    · exact Or.inr ⟨List.mem_cons_of_mem _ h1.1, h1.2⟩

theorem pickCandidate_mem (now : Int) (l : List Job) (j : Job)
    (h : pickCandidate now l = some j) : j ∈ l ∧ claimable now j = true := by
  rcases pickFold_cases now l none j h with h1 | h1
  · exact absurd h1 (by simp)
  · exact h1

/-- `PickNextJob` can only hand out a job whose row was `'pending'`: if
every row with a given id is in some other status, the claimed job
never has that id. -/
theorem pickNextJob_id_not (db : DBState) (now2 id : Int)
    (hall : ∀ j ∈ db.jobs, j.id = id → ¬ j.status = JobStatus.pending) :
    ∀ p, PickNextJob db now2 = some p → p.2.id ≠ id := by
  intro p h
  unfold PickNextJob at h
  cases hp : pickCandidate now2 db.jobs with
  | none => rw [hp] at h; exact absurd h (by simp)
  | some j =>
    rw [hp] at h
    obtain ⟨hmem, hcl⟩ := pickCandidate_mem _ _ _ hp
    injection h with h
    subst h
    intro heq
    have hid : j.id = id := by simpa using heq
    have hpend : j.status = JobStatus.pending := by
      simp [claimable] at hcl
      exact hcl.1
    exact hall j hmem hid hpend

/-- C1 counterexample: a retryable failure (`"503 service
unavailable"`) on a job far under every attempt cap leaves the job in
status `'failed'` — with that error recorded — and a subsequent claim
cycle (`PickNextJob` an hour later) finds nothing eligible, because
`PickNextJob` selects only `'pending'` rows. -/
theorem processJob_failed_not_reclaimable_counterexample :
    IsRetryableError (some cErr503) = true ∧
    cJob1.attemptCount < cJob1.maxAttempts ∧
    ShouldMoveToDLQ cNow cJob1 = false ∧
    (processJob cDb cNow cJob1 true true (some cErr503) noTxFailures).db.jobs =
      [{ cJob1 with status := JobStatus.failed, lastError := some "503 service unavailable" }] ∧
    PickNextJob (processJob cDb cNow cJob1 true true (some cErr503) noTxFailures).db
      (cNow + timeHour) = none := by decide

/-- C1 (amended): when the handler of a claimed job fails with a
retryable, non-rate-limit error and the job is under the DLQ threshold,
the processor records the error via `FailJob` — which sets the status
to `'failed'`, not back to a claimable state — so every row with that
job's id is `'failed'` and no later `PickNextJob` can return it;
re-queueing requires the separate manual `RetryJob` path. -/
theorem processJob_retryable_failure (db : DBState) (now : Int) (job : Job)
    (e : GoError) (f : TxFailures)
    (_hretry : IsRetryableError (some e) = true)
    (hproc : IsJobProcessed db job.id = false)
    (hext : IsExternalRateLimitError (some e) = false)
    (hdlq : ShouldMoveToDLQ now job = false) :
    (processJob db now job true true (some e) f).db = FailJob db now e.msg job.id ∧
    (∀ j ∈ (processJob db now job true true (some e) f).db.jobs,
      j.id = job.id → j.status = JobStatus.failed ∧ j.lastError = some e.msg) ∧
    (∀ now2 p, PickNextJob (processJob db now job true true (some e) f).db now2 = some p →
      p.2.id ≠ job.id) := by
  have hP : processJob db now job true true (some e) f =
      { db := FailJob db now e.msg job.id, handlerInvoked := true } := by
    simp [processJob, hproc, hext, handleFailure, hdlq]
  refine ⟨by rw [hP], ?_, ?_⟩
  · rw [hP]
    exact failJob_row_status db now e.msg job.id
  · intro now2 p hpick
    rw [hP] at hpick
    refine pickNextJob_id_not _ now2 job.id ?_ p hpick
    intro j hj hid
    rw [(failJob_row_status db now e.msg job.id j hj hid).1]
    simp

/-- C1 witness: the amended theorem applied to the concrete 503
failure. -/
theorem processJob_retryable_failure_witness :
    (processJob cDb cNow cJob1 true true (some cErr503) noTxFailures).db =
      FailJob cDb cNow cErr503.msg cJob1.id :=
  (processJob_retryable_failure cDb cNow cJob1 cErr503 noTxFailures (by decide) (by decide)
    (by decide) (by decide)).1

/-- Any error classified as an external rate-limit signal yields a
positive retry-after duration (a parsed positive header value, or the
one-minute fallback). -/
theorem getRetryAfterDuration_pos (err : Option GoError)
    (h : IsExternalRateLimitError err = true) :
    0 < GetRetryAfterDuration err := by
  match err with
  | none => simp [IsExternalRateLimitError] at h
  | some e =>
    cases hA : afterFirst ("retry-after".toList) (lowerList e.msg.toList) with
    | none =>
      simp only [GetRetryAfterDuration, hA, h]
      norm_num [timeMinute, timeSecond]
    | some tail =>
      simp only [GetRetryAfterDuration, hA]
      by_cases hs : 0 < parseRetrySeconds
          (trimSpace (stripLead ['='] (stripLead [':']
            (trimSpace (beforeFirst ("retry-after".toList) tail)))))
      · simp only [if_pos hs]
        exact mul_pos hs (by norm_num [timeSecond])
      · simp only [if_neg hs, h]
        norm_num [timeMinute, timeSecond]

theorem isJobProcessed_after_record (db : DBState) (now id : Int) :
    IsJobProcessed (CompleteJob (RecordJobProcessed db id) now id) id = true := by
  by_cases h : id ∈ db.processedJobs <;>
    simp [IsJobProcessed, RecordJobProcessed, CompleteJob, h]

/-- C2 counterexample: a handler failure that is an explicit external
rate-limit signal (`"rate limit exceeded"`) does not leave the job
retryable — the processor records it in the processed-jobs ledger and
marks it `'completed'`. -/
theorem processJob_rateLimit_completes_counterexample :
    IsExternalRateLimitError (some cErrRate) = true ∧
    (processJob cDb cNow cJob1 true true (some cErrRate) noTxFailures).db.processedJobs = [1] ∧
    (processJob cDb cNow cJob1 true true (some cErrRate) noTxFailures).db.jobs =
      [{ cJob1 with status := JobStatus.completed }] := by decide

/-- C2 (amended): for every claimed job whose handler returns an
explicit external rate-limit error, the processor logs a backoff
recommendation and sleeps for the retry-after duration, but then clears
the error and treats the job as a success: it records the job in the
processed-jobs ledger and marks it completed; it is not left
retryable. -/
theorem processJob_external_rateLimit_completes (db : DBState) (now : Int) (job : Job)
    (e : GoError)
    (hext : IsExternalRateLimitError (some e) = true)
    (hproc : IsJobProcessed db job.id = false) :
    processJob db now job true true (some e) noTxFailures =
      { db := CompleteJob (RecordJobProcessed db job.id) now job.id,
        handlerInvoked := true } ∧
    IsJobProcessed (processJob db now job true true (some e) noTxFailures).db job.id = true ∧
    (∀ j ∈ (processJob db now job true true (some e) noTxFailures).db.jobs,
      j.id = job.id → j.status = JobStatus.completed) := by
  have hpos := getRetryAfterDuration_pos (some e) hext
  have hP : processJob db now job true true (some e) noTxFailures =
      { db := CompleteJob (RecordJobProcessed db job.id) now job.id,
        handlerInvoked := true } := by
    simp [processJob, hproc, hext, hpos, handleSuccess, noTxFailures]
  refine ⟨hP, ?_, ?_⟩
  · rw [hP]
    exact isJobProcessed_after_record db now job.id
  · rw [hP]
    exact completeJob_row_status _ now job.id

/-- C2 witness: the amended theorem applied to the concrete rate-limit
failure. -/
theorem processJob_external_rateLimit_completes_witness :
    processJob cDb cNow cJob1 true true (some cErrRate) noTxFailures =
      { db := CompleteJob (RecordJobProcessed cDb cJob1.id) cNow cJob1.id,
        handlerInvoked := true } :=
  (processJob_external_rateLimit_completes cDb cNow cJob1 cErrRate (by decide) (by decide)).1

theorem pickNextJob_processedJobs (db : DBState) (now : Int) (p : DBState × Job)
    (h : PickNextJob db now = some p) : p.1.processedJobs = db.processedJobs := by
  unfold PickNextJob at h
  cases hc : pickCandidate now db.jobs with
  | none => rw [hc] at h; simp at h
  | some j =>
    rw [hc] at h
    injection h with h
    subst h
    rfl

theorem reprocessDLQ_processedJobs (db : DBState) (now : Int) (dlqId : Int)
    (p : DBState × Job) (h : ReprocessDeadLetterJob db now dlqId = some p) :
    p.1.processedJobs = db.processedJobs := by
  unfold ReprocessDeadLetterJob at h
  cases hf : db.deadLetterJobs.find? (fun d => d.id == dlqId) with
  | none => rw [hf] at h; simp at h
  | some d =>
    rw [hf] at h
    injection h with h
    subst h
    rfl

/-- A single core.sql statement touches the `processed_jobs` ledger only
when it is `RecordJobProcessed` for that very id. -/
theorem isJobProcessed_applyDbOp (db : DBState) (op : DbOp) (id : Int) :
    IsJobProcessed (applyDbOp db op) id = true ↔
      (IsJobProcessed db id = true ∨ op = DbOp.recordJobProcessed id) := by
  cases op with
  | createJob now tenantId jobType payload runAt =>
    simp [applyDbOp, CreateJob, uniqueKeyViolation, IsJobProcessed]
  | pickNextJob now =>
    cases hp : PickNextJob db now with
    | none => simp [applyDbOp, hp]
    | some p =>
      simp [applyDbOp, hp, IsJobProcessed, pickNextJob_processedJobs db now p hp]
  | completeJob now id2 => simp [applyDbOp, CompleteJob, IsJobProcessed]
  | failJob now lastError id2 => simp [applyDbOp, FailJob, IsJobProcessed]
  | rescueZombies now => simp [applyDbOp, RescueZombies, IsJobProcessed]
  | recordJobProcessed id2 =>
    simp only [applyDbOp, RecordJobProcessed, IsJobProcessed,
      DbOp.recordJobProcessed.injEq]
    by_cases hmem : id2 ∈ db.processedJobs
    · simp only [hmem, if_true, decide_eq_true_eq]
      constructor
      · exact Or.inl
      · rintro (h | h)
        · exact h
        · rw [← h]; exact hmem
    · simp only [hmem, if_false, decide_eq_true_eq, List.mem_append, List.mem_singleton]
      constructor
      · rintro (h | h)
        · exact Or.inl h
        · exact Or.inr h.symm
      · rintro (h | h)
        · exact Or.inl h
        · exact Or.inr h.symm
  | moveToDeadLetter now id2 =>
    unfold applyDbOp MoveToDeadLetter
    cases hf : db.jobs.find? (fun j => j.id == id2) with
    | none => simp [hf]
    | some r => simp [hf, IsJobProcessed]
  | deleteJob id2 => simp [applyDbOp, DeleteJob, IsJobProcessed]
  | reprocessDeadLetterJob now dlqId =>
    cases hp : ReprocessDeadLetterJob db now dlqId with
    | none => simp [applyDbOp, hp]
    | some p =>
      simp [applyDbOp, hp, IsJobProcessed, reprocessDLQ_processedJobs db now dlqId p hp]
  | deleteDeadLetterJob dlqId => simp [applyDbOp, DeleteDeadLetterJob, IsJobProcessed]

theorem isProcessed_foldl (ops : List DbOp) (id : Int) :
    ∀ db, IsJobProcessed (ops.foldl applyDbOp db) id = true ↔
      (IsJobProcessed db id = true ∨ DbOp.recordJobProcessed id ∈ ops) := by
  induction ops with
  | nil => intro db; simp
  | cons op rest ih =>
    intro db
    simp only [List.foldl_cons, List.mem_cons]
    rw [ih (applyDbOp db op), isJobProcessed_applyDbOp]
    constructor
    · rintro ((h | h) | h)
      · exact Or.inl h
      · exact Or.inr (Or.inl h.symm)
      · exact Or.inr (Or.inr h)
    · rintro (h | h | h)
      · exact Or.inl (Or.inl h)
      · exact Or.inl (Or.inr h.symm)
      · exact Or.inr h

/-- C5: over every trace of core.sql statements from an empty store,
`IsProcessed(id)` is true exactly when a `RecordProcessed(id)` occurs in
the trace (nothing ever deletes from the ledger); and the processor,
seeing `IsProcessed = true` on a claimed job, force-completes it and
returns without invoking the handler. -/
theorem isProcessed_iff_recorded (ops : List DbOp) (id : Int)
    (db : DBState) (now : Int) (job : Job) (admitted : Bool)
    (res : Option GoError) (f : TxFailures)
    (hp : IsJobProcessed db job.id = true) :
    (IsJobProcessed (runDbOps ops) id = true ↔ DbOp.recordJobProcessed id ∈ ops) ∧
    processJob db now job true admitted res f =
      { db := CompleteJob db now job.id, handlerInvoked := false } := by
  constructor
  · exact (isProcessed_foldl ops id emptyDB).trans (by simp [IsJobProcessed, emptyDB])
  · simp [processJob, hp]

/-- C5 witness: a one-statement trace recording id 7, and the
force-complete short-circuit on the already-processed job 1. -/
theorem isProcessed_iff_recorded_witness :
    (IsJobProcessed (runDbOps [DbOp.recordJobProcessed 7]) 7 = true ↔
      DbOp.recordJobProcessed 7 ∈ [DbOp.recordJobProcessed 7]) ∧
    processJob cDbProcessed cNow cJob1 true true none noTxFailures =
      { db := CompleteJob cDbProcessed cNow cJob1.id, handlerInvoked := false } :=
  isProcessed_iff_recorded [DbOp.recordJobProcessed 7] 7 cDbProcessed cNow cJob1 true none
    noTxFailures (by decide)

/-- C6: `handleSuccess` is atomic.  When no transaction step fails it
publishes exactly `RecordJobProcessed` followed by `CompleteJob` — the
ledger row exists and the job is completed; when any step (begin,
either statement, commit) fails, the rollback leaves the store exactly
as it was, so a "processed but not completed" state can never be
produced by this path. -/
theorem handleSuccess_atomic (db : DBState) (now jobId : Int) (f : TxFailures) :
    (f = noTxFailures →
      handleSuccess db now jobId f = CompleteJob (RecordJobProcessed db jobId) now jobId ∧
      IsJobProcessed (handleSuccess db now jobId f) jobId = true ∧
      ∀ j ∈ (handleSuccess db now jobId f).jobs, j.id = jobId →
        j.status = JobStatus.completed) ∧
    (f ≠ noTxFailures → handleSuccess db now jobId f = db) := by
  constructor
  · rintro rfl
    refine ⟨rfl, isJobProcessed_after_record db now jobId, ?_⟩
    exact completeJob_row_status _ now jobId
  · intro hne
    obtain ⟨b, r, c, m⟩ := f
    cases b <;> cases r <;> cases c <;> cases m <;>
      simp_all [handleSuccess, noTxFailures]

/-- C6 witness: the failure-free run commits both writes; a failing
commit leaves the store untouched. -/
theorem handleSuccess_atomic_witness :
    handleSuccess cDb cNow 1 noTxFailures = CompleteJob (RecordJobProcessed cDb 1) cNow 1 ∧
    handleSuccess cDb cNow 1 { noTxFailures with commitFails := true } = cDb :=
  ⟨((handleSuccess_atomic cDb cNow 1 noTxFailures).1 rfl).1,
   (handleSuccess_atomic cDb cNow 1 { noTxFailures with commitFails := true }).2 (by decide)⟩

theorem find?_append_of_none {α} (p : α → Bool) (l1 l2 : List α)
    (h : l1.find? p = none) : (l1 ++ l2).find? p = l2.find? p := by
  rw [List.find?_append, h, Option.none_or]

theorem deleteDLQ_not_mem (db : DBState) (dlqId : Int) :
    ∀ d ∈ (DeleteDeadLetterJob db dlqId).deadLetterJobs, d.id ≠ dlqId := by
  intro d hd
  unfold DeleteDeadLetterJob at hd
  simp only [List.mem_filter] at hd
  simpa using hd.2

/-- C7: `Reprocess(dlqId)` always yields a fresh live job with
`attempt_count = 0` and status `pending` and deletes the archive row;
and `Move` followed by `Reprocess` of the freshly archived row yields a
live job whose `type`, `tenant_id` and `payload` equal the original
table row's exactly. -/
theorem reprocess_roundtrip (db : DBState) (now now2 : Int) (r : Job)
    (hfind : db.jobs.find? (fun j => j.id == r.id) = some r)
    (hfresh : ∀ d ∈ db.deadLetterJobs, d.id ≠ db.nextDlqId) :
    (∀ (db0 : DBState) (now1 dlqId : Int) (db1 : DBState) (j : Job),
        Reprocess db0 now1 dlqId = some (db1, j) →
        j.attemptCount = 0 ∧ j.status = JobStatus.pending ∧
        ∀ d ∈ db1.deadLetterJobs, d.id ≠ dlqId) ∧
    (∃ db2 j, Reprocess (Move db now r) now2 db.nextDlqId = some (db2, j) ∧
      j.jobType = r.jobType ∧ j.tenantId = r.tenantId ∧ j.payload = r.payload ∧
      j.attemptCount = 0 ∧ j.status = JobStatus.pending ∧
      ∀ d ∈ db2.deadLetterJobs, d.id ≠ db.nextDlqId) := by
  constructor
  · intro db0 now1 dlqId db1 j h
    unfold Reprocess at h
    cases hrp : ReprocessDeadLetterJob db0 now1 dlqId with
    | none => rw [hrp] at h; simp at h
    | some p =>
      obtain ⟨pa, pb⟩ := p
      rw [hrp] at h
      dsimp only at h
      injection h with h
      injection h with h1 h2
      subst h1
      subst h2
      unfold ReprocessDeadLetterJob at hrp
      cases hf : db0.deadLetterJobs.find? (fun d => d.id == dlqId) with
      | none => rw [hf] at hrp; simp at hrp
      | some d =>
        rw [hf] at hrp
        dsimp only at hrp
        injection hrp with hrp
        injection hrp with h3 h4
        subst h4
        exact ⟨rfl, rfl, deleteDLQ_not_mem _ _⟩
  · have hnone : db.deadLetterJobs.find? (fun d => d.id == db.nextDlqId) = none :=
      List.find?_eq_none.mpr (fun d hd => by simpa using hfresh d hd)
    have hMoveDlq : (Move db now r).deadLetterJobs =
        db.deadLetterJobs ++
          [({ id := db.nextDlqId, originalJobId := r.id,
              tenantId := r.tenantId, jobType := r.jobType, payload := r.payload,
              attemptCount := r.attemptCount, lastError := r.lastError,
              failedAt := now } : DLJob)] := by
      unfold Move DeleteJob MoveToDeadLetter
      rw [hfind]
    have hfindD : (Move db now r).deadLetterJobs.find?
        (fun d => d.id == db.nextDlqId) =
        some { id := db.nextDlqId, originalJobId := r.id,
               tenantId := r.tenantId, jobType := r.jobType, payload := r.payload,
               attemptCount := r.attemptCount, lastError := r.lastError,
               failedAt := now } := by
      rw [hMoveDlq, find?_append_of_none _ _ _ hnone]
      simp [List.find?]
    unfold Reprocess ReprocessDeadLetterJob
    rw [hfindD]
    exact ⟨_, _, rfl, rfl, rfl, rfl, rfl, rfl, deleteDLQ_not_mem _ _⟩

/-- C7 witness: the round trip on the concrete one-job store. -/
theorem reprocess_roundtrip_witness :
    ∃ db2 j, Reprocess (Move cDb cNow cJob1) (cNow + timeSecond) cDb.nextDlqId =
        some (db2, j) ∧
      j.jobType = cJob1.jobType ∧ j.tenantId = cJob1.tenantId ∧ j.payload = cJob1.payload ∧
      j.attemptCount = 0 ∧ j.status = JobStatus.pending ∧
      ∀ d ∈ db2.deadLetterJobs, d.id ≠ cDb.nextDlqId :=
  (reprocess_roundtrip cDb cNow (cNow + timeSecond) cJob1 (by decide) (by decide)).2

/-- C9: `RescueZombies` touches no other table, keeps the row count,
sends exactly the rows that are `'processing'` with `updated_at` older
than five minutes back to `'pending'` with `attempt_count + 1` (all
other columns of those rows unchanged, stated by the record update),
and leaves every other row literally equal to what it was. -/
theorem rescueZombies_frame (db : DBState) (now : Int) (i : Nat) (j : Job)
    (hj : db.jobs[i]? = some j) :
    (RescueZombies db now).processedJobs = db.processedJobs ∧
    (RescueZombies db now).deadLetterJobs = db.deadLetterJobs ∧
    (RescueZombies db now).jobs.length = db.jobs.length ∧
    ((j.status = JobStatus.processing ∧
        ∃ t, j.updatedAt = some t ∧ t < now - 5 * timeMinute) →
      (RescueZombies db now).jobs[i]? = some
        { j with status := JobStatus.pending, attemptCount := j.attemptCount + 1 }) ∧
    (¬(j.status = JobStatus.processing ∧
        ∃ t, j.updatedAt = some t ∧ t < now - 5 * timeMinute) →
      (RescueZombies db now).jobs[i]? = some j) := by
  have hmap : (RescueZombies db now).jobs[i]? = some (rescueRow now j) := by
    unfold RescueZombies
    simp only [List.getElem?_map, hj, Option.map_some']
  refine ⟨rfl, rfl, by simp [RescueZombies], ?_, ?_⟩
  · rintro ⟨hs, t, ht, hlt⟩
    rw [hmap]
    unfold rescueRow
    rw [if_pos]
    simp only [hs, ht, decide_eq_true_eq, decide_True, Bool.true_and]
    exact hlt
  · intro hneg
    rw [hmap]
    unfold rescueRow
    rw [if_neg]
    intro hcond
    apply hneg
    rw [Bool.and_eq_true] at hcond
    obtain ⟨h1, h2⟩ := hcond
    refine ⟨of_decide_eq_true h1, ?_⟩
    cases hu : j.updatedAt with
    | none => rw [hu] at h2; simp at h2
    | some t =>
      rw [hu] at h2
      exact ⟨t, rfl, of_decide_eq_true h2⟩

/-- C9 witness: in a store with one stale and one fresh `processing`
job, the stale row is re-queued with its attempt count bumped and the
fresh row is untouched. -/
theorem rescueZombies_frame_witness :
    (RescueZombies cDbZombie cNow).jobs[0]? = some
      { cJobStale with status := JobStatus.pending,
                       attemptCount := cJobStale.attemptCount + 1 } ∧
    (RescueZombies cDbZombie cNow).jobs[1]? = some cJob1 :=
  ⟨(rescueZombies_frame cDbZombie cNow 0 cJobStale rfl).2.2.2.1
      ⟨rfl, cNow - 6 * timeMinute, rfl, by decide⟩,
   (rescueZombies_frame cDbZombie cNow 1 cJob1 rfl).2.2.2.2
      (by
        rintro ⟨-, t, ht, hlt⟩
        injection ht with ht
        rw [← ht] at hlt
        simp only [cNow, timeMinute, timeSecond] at hlt
        omega)⟩

theorem semInvariant_fold (ops : List SemOp) :
    ∀ (st : String → Nat), (∀ k, st k ≤ semCap k) →
      ∀ k, (ops.foldl applySemOp st) k ≤ semCap k := by
  induction ops with
  | nil => intro st h k; exact h k
  | cons op rest ih =>
    intro st h k
    simp only [List.foldl_cons]
    apply ih
    intro k2
    cases op with
    | acquire t =>
      unfold applySemOp
      dsimp only
      by_cases hlt : st (semKey t) < semCap (semKey t)
      · rw [if_pos hlt]
        unfold updateFn
        by_cases hk : k2 = semKey t
        · subst hk
          rw [if_pos rfl]
          omega
        · rw [if_neg hk]
          exact h k2
      · rw [if_neg hlt]
        exact h k2
    | release t =>
      unfold applySemOp
      dsimp only
      by_cases hpos : 0 < st (semKey t)
      · rw [if_pos hpos]
        unfold updateFn
        by_cases hk : k2 = semKey t
        · subst hk
          rw [if_pos rfl]
          have := h (semKey t)
          omega
        · rw [if_neg hk]
          exact h k2
      · rw [if_neg hpos]
        exact h k2

/-- C10: over every sequence of completed `Acquire`/`Release` events
starting from empty semaphores, the permits held on any semaphore never
exceed its configured concurrency capacity (and, being counts, never
drop below zero); and `Release` — a `select` with a `default` arm, so
it never blocks — is a no-op on a semaphore holding no permit. -/
theorem semaphore_release_safe (ops : List SemOp) (key : String)
    (st : String → Nat) (t : String) (h0 : st (semKey t) = 0) :
    runSemOps ops key ≤ semCap key ∧ applySemOp st (SemOp.release t) = st := by
  constructor
  · exact semInvariant_fold ops initSemState (fun k => Nat.zero_le _) key
  · funext s
    simp [applySemOp, h0]

/-- C10 witness: an acquire/release pair on `send_email` stays within
capacity, and a release with no permit held is the identity. -/
theorem semaphore_release_safe_witness :
    runSemOps [SemOp.acquire "send_email", SemOp.release "send_email"] "send_email" ≤
      semCap "send_email" ∧
    applySemOp initSemState (SemOp.release "process_ai") = initSemState :=
  semaphore_release_safe [SemOp.acquire "send_email", SemOp.release "send_email"]
    "send_email" initSemState "process_ai" rfl

end Goth
